import Mathlib

/-!
Verification of the potential-flow tool's core numeric routines.

The repository computes 2D potential-flow fields:
  * `src/src/plots/plotRotatingCylinder.py` — closed-form solver for a
    rotating cylinder (grid fields, surface quantities, stagnation points);
  * `src/lib/presets/cylinder.py` — a cylinder flow-element preset;
  * `src/src/flowfield.py` — the field aggregator (`Flowfield.draw`).

The numeric computations (numpy over floats) are embedded over `ℝ`.
Scalar Python-float division raises `ZeroDivisionError` on a zero
denominator; where that matters it is modelled with an `Except` value.
Vectorized (array) divisions are modelled by total real division.
-/

open Real

noncomputable section

/-- Embedding of `np.arctan2(y, x)`: the angle of the point `(x, y)`,
realized as the argument of the complex number `x + y·i` (range `(-π, π]`,
and `arctan2 0 0 = 0`, matching numpy). -/
def arctan2 (y x : ℝ) : ℝ := Complex.arg ⟨x, y⟩

/-! ## Cylinder solver grid fields (`plotRotatingCylinder.py`, lines 31–44) -/

/-- Embedding of line 32: `r = np.sqrt(XX*XX + YY*YY)` at one grid point. -/
def gridR (x y : ℝ) : ℝ := Real.sqrt (x * x + y * y)

/-- Embedding of line 33: `theta = np.arctan2(YY, XX)` at one grid point. -/
def gridTheta (x y : ℝ) : ℝ := arctan2 y x

/-- Embedding of line 36: `Vr = (1 - R*R/(r*r))*Vinf*np.cos(theta)`. -/
def cylVr (Vinf R r θ : ℝ) : ℝ := (1 - R * R / (r * r)) * Vinf * Real.cos θ

/-- Embedding of line 37:
`Vtheta = -(1 + R*R/(r*r))*Vinf*np.sin(theta) - strength/(2*np.pi*r)`. -/
def cylVtheta (Vinf R Γ r θ : ℝ) : ℝ :=
  -(1 + R * R / (r * r)) * Vinf * Real.sin θ - Γ / (2 * π * r)

/-- Embedding of line 38: `Vmag = np.sqrt(Vr*Vr + Vtheta*Vtheta)`. -/
def cylVmag (Vinf R Γ r θ : ℝ) : ℝ :=
  Real.sqrt (cylVr Vinf R r θ * cylVr Vinf R r θ +
    cylVtheta Vinf R Γ r θ * cylVtheta Vinf R Γ r θ)

/-- Embedding of line 39: `Vx = Vr*np.cos(theta) - Vtheta*np.sin(theta)`. -/
def cylVx (Vinf R Γ r θ : ℝ) : ℝ :=
  cylVr Vinf R r θ * Real.cos θ - cylVtheta Vinf R Γ r θ * Real.sin θ

/-- Embedding of line 40: `Vy = Vr*np.sin(theta) + Vtheta*np.cos(theta)`. -/
def cylVy (Vinf R Γ r θ : ℝ) : ℝ :=
  cylVr Vinf R r θ * Real.sin θ + cylVtheta Vinf R Γ r θ * Real.cos θ

/-- Embedding of line 43:
`phi = Vinf*r*np.cos(theta)*(1+R*R/(r*r)) - strength/(2*np.pi)*theta`. -/
def cylPhi (Vinf R Γ r θ : ℝ) : ℝ :=
  Vinf * r * Real.cos θ * (1 + R * R / (r * r)) - Γ / (2 * π) * θ

/-- Embedding of line 44:
`psi = Vinf*r*np.sin(theta)*(1-R*R/(r*r)) + strength/(2*np.pi)*np.log(r/R)`. -/
def cylPsi (Vinf R Γ r θ : ℝ) : ℝ :=
  Vinf * r * Real.sin θ * (1 - R * R / (r * r)) + Γ / (2 * π) * Real.log (r / R)

/-! ## Closed forms as written in the spec (section 4.2, grid solution) -/

/-- Written from the spec: `Vr(r,θ) = (1 − R²/r²)·Vinf·cos θ`. -/
def specVr (Vinf R r θ : ℝ) : ℝ := (1 - R ^ 2 / r ^ 2) * Vinf * Real.cos θ

/-- Written from the spec: `Vθ(r,θ) = −(1 + R²/r²)·Vinf·sin θ − Γ/(2π r)`. -/
def specVtheta (Vinf R Γ r θ : ℝ) : ℝ :=
  -(1 + R ^ 2 / r ^ 2) * Vinf * Real.sin θ - Γ / (2 * π * r)

/-- Written from the spec: `Vmag = √(Vr²+Vθ²)`. -/
def specVmag (Vinf R Γ r θ : ℝ) : ℝ :=
  Real.sqrt (specVr Vinf R r θ ^ 2 + specVtheta Vinf R Γ r θ ^ 2)

/-- Written from the spec: `Vx = Vr·cos θ − Vθ·sin θ`. -/
def specVx (Vinf R Γ r θ : ℝ) : ℝ :=
  specVr Vinf R r θ * Real.cos θ - specVtheta Vinf R Γ r θ * Real.sin θ

/-- Written from the spec: `Vy = Vr·sin θ + Vθ·cos θ`. -/
def specVy (Vinf R Γ r θ : ℝ) : ℝ :=
  specVr Vinf R r θ * Real.sin θ + specVtheta Vinf R Γ r θ * Real.cos θ

/-- Written from the spec: `φ = Vinf·r·cos θ·(1+R²/r²) − (Γ/2π)·θ`. -/
def specPhi (Vinf R Γ r θ : ℝ) : ℝ :=
  Vinf * r * Real.cos θ * (1 + R ^ 2 / r ^ 2) - Γ / (2 * π) * θ

/-- Written from the spec: `ψ = Vinf·r·sin θ·(1−R²/r²) + (Γ/2π)·ln(r/R)`. -/
def specPsi (Vinf R Γ r θ : ℝ) : ℝ :=
  Vinf * r * Real.sin θ * (1 - R ^ 2 / r ^ 2) + Γ / (2 * π) * Real.log (r / R)

/-! ## Surface quantities (`plotRotatingCylinder.py`, lines 47–62) -/

/-- Embedding of `np.linspace(a, b, n)` (default `endpoint=True`): `n`
equally spaced samples from `a` to `b`, both endpoints included. -/
def linspace (a b : ℝ) (n : ℕ) : List ℝ :=
  (List.range n).map (fun (i : ℕ) => a + (b - a) * (i : ℝ) / ((n - 1 : ℕ) : ℝ))

/-- Embedding of line 47: `n = 250` (the surface sample count, a local
constant in the source). -/
def cylSurfaceN : ℕ := 250

/-- Embedding of line 48: `thetaS = np.linspace(0, 2*np.pi, n)`,
parameterized on the sample count. -/
def cylThetaS (n : ℕ) : List ℝ := linspace 0 (2 * π) n

/-- Embedding of line 49: `rS = cylinderRadius*np.ones(n)`. -/
def cylRS (R : ℝ) (n : ℕ) : List ℝ := List.replicate n R

/-- Embedding of line 55: `VrS = (1 - R*R/(rS*rS))*Vinf*np.cos(thetaS)`
at one surface sample, where the surface radius array `rS` is constantly
`R`. -/
def cylVrS (Vinf R θ : ℝ) : ℝ := (1 - R * R / (R * R)) * Vinf * Real.cos θ

/-- Embedding of line 56:
`VthetaS = -(1 + R*R/(rS*rS))*Vinf*np.sin(thetaS) - strength/(2*np.pi*R)`. -/
def cylVthetaS (Vinf R Γ θ : ℝ) : ℝ :=
  -(1 + R * R / (R * R)) * Vinf * Real.sin θ - Γ / (2 * π * R)

/-- Embedding of line 57: `VmagS = np.sqrt(VrS*VrS + VthetaS*VthetaS)`. -/
def cylVmagS (Vinf R Γ θ : ℝ) : ℝ :=
  Real.sqrt (cylVrS Vinf R θ * cylVrS Vinf R θ +
    cylVthetaS Vinf R Γ θ * cylVthetaS Vinf R Γ θ)

/-- Embedding of line 62: `CpS = 1 - VmagS*VmagS/(Vinf*Vinf)`. -/
def cylCpS (Vinf R Γ θ : ℝ) : ℝ :=
  1 - cylVmagS Vinf R Γ θ * cylVmagS Vinf R Γ θ / (Vinf * Vinf)

/-! ## Stagnation points (`plotRotatingCylinder.py`, lines 64–78) -/

/-- Embedding of line 65: `condition = strength/(4*np.pi*Vinf*cylinderRadius)`
(value of the real division; the zero-denominator failure of the scalar
Python-float division is modelled separately in `cylStagnationChecked`). -/
def cylCondition (Vinf R Γ : ℝ) : ℝ := Γ / (4 * π * Vinf * R)

/-- Embedding of line 74: `tmp = strength/(4*np.pi*Vinf)`. -/
def cylTmpStag (Vinf Γ : ℝ) : ℝ := Γ / (4 * π * Vinf)

/-- Embedding of line 68: `thetaStag += (thetaStag < 0)*2*np.pi`, applied
elementwise — add `2π` to a negative entry, keep the rest. -/
def normalizeTheta (θ : ℝ) : ℝ := if θ < 0 then θ + 2 * π else θ

/-- Embedding of lines 66–76, angle list: the stagnation angles chosen by
the three-branch `if condition < 1 / elif == 1 / elif > 1` (over `ℝ`,
trichotomy makes the last branch the complement of the first two). -/
def cylThetaStag (Vinf R Γ : ℝ) : List ℝ :=
  if cylCondition Vinf R Γ < 1 then
    [normalizeTheta (π - Real.arcsin (-cylCondition Vinf R Γ)),
     normalizeTheta (Real.arcsin (-cylCondition Vinf R Γ))]
  else if cylCondition Vinf R Γ = 1 then [3 * π / 2]
  else [3 * π / 2, 3 * π / 2]

/-- Embedding of lines 66–76, radius list (line 76 uses
`tmp**2 - cylinderRadius**2` under the square roots). -/
def cylRStag (Vinf R Γ : ℝ) : List ℝ :=
  if cylCondition Vinf R Γ < 1 then [R, R]
  else if cylCondition Vinf R Γ = 1 then [R]
  else [cylTmpStag Vinf Γ + Real.sqrt (cylTmpStag Vinf Γ ^ 2 - R ^ 2),
        cylTmpStag Vinf Γ - Real.sqrt (cylTmpStag Vinf Γ ^ 2 - R ^ 2)]

/-- Failure modes of a `plotRotatingCylinder` call: the four `ValueError`
validations of lines 11–21, and the unguarded scalar zero-denominator
division (lines 56 and 65, which raise `ZeroDivisionError` for Python-float
inputs when `Vinf·R = 0`; with numpy scalars the same inputs instead
produce a NaN/Inf `condition`, and the NaN case leaves `rStag` unassigned
so line 77 raises `UnboundLocalError`). -/
inductive CylError where
  | invalidParamError (msg : String)
  | zeroDivisionError
  deriving DecidableEq

/-- Arrays returned by a successful `plotRotatingCylinder` computation
(the numeric payload behind the figures): grid fields as pointwise
functions of the grid point `(x, y)`, surface sample lists, the surface
`Cp` as a function of the sample angle, and the stagnation-point lists. -/
structure CylinderResult where
  Vmag : ℝ → ℝ → ℝ
  Vx : ℝ → ℝ → ℝ
  Vy : ℝ → ℝ → ℝ
  phi : ℝ → ℝ → ℝ
  psi : ℝ → ℝ → ℝ
  thetaS : List ℝ
  rS : List ℝ
  CpS : ℝ → ℝ
  thetaStag : List ℝ
  rStag : List ℝ

/-- Embedding of the stagnation-point computation including its failure
mode: line 65 divides the scalar `strength` by `4*np.pi*Vinf*cylinderRadius`
with no guard, so a zero denominator fails instead of being skipped
(`ZeroDivisionError` for Python floats; NaN condition and then
`UnboundLocalError` at line 77 for numpy scalars with `Γ = 0`). -/
def cylStagnationChecked (Vinf R Γ : ℝ) : Except CylError (List ℝ × List ℝ) :=
  if 4 * π * Vinf * R = 0 then .error .zeroDivisionError
  else .ok (cylThetaStag Vinf R Γ, cylRStag Vinf R Γ)

/-- Embedding of the `plotRotatingCylinder` call: the four fail-fast
validations of lines 11–21 (raised `ValueError`s become
`CylError.invalidParamError` with the source's message), then the main
computation; the unguarded scalar division of the stagnation block
propagates as `CylError.zeroDivisionError`. -/
def cylRun (Lx Ly : ℝ × ℝ) (Vinf R Γ : ℝ) : Except CylError CylinderResult :=
  if Lx.1 > Lx.2 then
    .error (.invalidParamError "Domain endpoints incorrectly defined: Lx[0] > Lx[1]")
  else if Ly.1 > Ly.2 then
    .error (.invalidParamError "Domain endpoints incorrectly defined: Ly[0] > Ly[1]")
  else if Vinf < 0 then
    .error (.invalidParamError "Freestream Velocity Magnitude is negative!")
  else if R < 0 then
    .error (.invalidParamError "Cylinder radius is negative!")
  else
    match cylStagnationChecked Vinf R Γ with
    | .error e => .error e
    | .ok st =>
        .ok { Vmag := fun x y => cylVmag Vinf R Γ (gridR x y) (gridTheta x y)
              Vx := fun x y => cylVx Vinf R Γ (gridR x y) (gridTheta x y)
              Vy := fun x y => cylVy Vinf R Γ (gridR x y) (gridTheta x y)
              phi := fun x y => cylPhi Vinf R Γ (gridR x y) (gridTheta x y)
              psi := fun x y => cylPsi Vinf R Γ (gridR x y) (gridTheta x y)
              thetaS := cylThetaS cylSurfaceN
              rS := cylRS R cylSurfaceN
              CpS := fun θ => cylCpS Vinf R Γ θ
              thetaStag := st.1
              rStag := st.2 }

/-! ## Cylinder preset (`lib/presets/cylinder.py`, lines 29–43) -/

/-- Embedding of `PresetCylinder.calculate_contribution(x, y)` at one query
point: returns `(du, dv, dphi, dpsi)` for a cylinder of free-stream speed
`Vinfty` and radius `radius` positioned at `(x0, y0)`. -/
def presetContribution (Vinfty radius x0 y0 x y : ℝ) : ℝ × ℝ × ℝ × ℝ :=
  let dx := x - x0
  let dy := y - y0
  let r := Real.sqrt (dx * dx + dy * dy)
  let θ := arctan2 dy dx
  let Vr := Vinfty * Real.cos θ * (1 - (radius / r) ^ 2)
  let Vθ := -Vinfty * Real.sin θ * (1 + (radius / r) ^ 2)
  (Vr * Real.cos θ - Vθ * Real.sin θ,
   Vr * Real.sin θ + Vθ * Real.cos θ,
   Vinfty * r * Real.cos θ * (1 + (radius / r) ^ 2),
   Vinfty * r * Real.sin θ * (1 - (radius / r) ^ 2))

/-! ## Flow elements and the aggregator (`src/flowfield.py`) -/

/-- Modelled from the spec: the flow-element library (the
`potentialflowvisualizer` element classes queried by `Flowfield.draw`, and
`src.commonfuncs.flow_element_type`) is not under `src/`; the variants and
their type tags follow spec section 4.1 and section 3. -/
inductive FlowElement where
  | uniform (u v : ℝ)
  | source (x0 y0 strength : ℝ)
  | doublet (x0 y0 strength alpha : ℝ)
  | vortex (x0 y0 strength : ℝ)

/-- Modelled from the spec: the type-tag check
`flow_element_type(object) == "Uniform"` used by the aggregator loop. -/
def FlowElement.isUniform : FlowElement → Bool
  | .uniform _ _ => true
  | _ => false

/-- Modelled from the spec: `get_x_velocity_at`, per-variant x-velocity laws
of spec section 4.1 (uniform: constant `U`; source `Vr = Λ/(2πr)`; doublet
`Vr = −(κ/(2πr²))·cos(θ−α)`, `Vθ = −(κ/(2πr²))·sin(θ−α)`; vortex
`Vθ = −Γ/(2πr)`; Cartesian via `u = Vr·cos θ − Vθ·sin θ`). -/
def FlowElement.xVelAt : FlowElement → ℝ × ℝ → ℝ
  | .uniform u _, _ => u
  | .source x0 y0 Λ, p =>
      let r := gridR (p.1 - x0) (p.2 - y0)
      let θ := gridTheta (p.1 - x0) (p.2 - y0)
      Λ / (2 * π * r) * Real.cos θ
  | .doublet x0 y0 κ α, p =>
      let r := gridR (p.1 - x0) (p.2 - y0)
      let θ := gridTheta (p.1 - x0) (p.2 - y0)
      let Vr := -(κ / (2 * π * r ^ 2)) * Real.cos (θ - α)
      let Vθ := -(κ / (2 * π * r ^ 2)) * Real.sin (θ - α)
      Vr * Real.cos θ - Vθ * Real.sin θ
  | .vortex x0 y0 Γ, p =>
      let r := gridR (p.1 - x0) (p.2 - y0)
      let θ := gridTheta (p.1 - x0) (p.2 - y0)
      let Vr := (0 : ℝ)
      let Vθ := -Γ / (2 * π * r)
      Vr * Real.cos θ - Vθ * Real.sin θ

/-- Modelled from the spec: `get_y_velocity_at`, Cartesian conversion
`v = Vr·sin θ + Vθ·cos θ` of the same per-variant polar laws. -/
def FlowElement.yVelAt : FlowElement → ℝ × ℝ → ℝ
  | .uniform _ v, _ => v
  | .source x0 y0 Λ, p =>
      let r := gridR (p.1 - x0) (p.2 - y0)
      let θ := gridTheta (p.1 - x0) (p.2 - y0)
      Λ / (2 * π * r) * Real.sin θ
  | .doublet x0 y0 κ α, p =>
      let r := gridR (p.1 - x0) (p.2 - y0)
      let θ := gridTheta (p.1 - x0) (p.2 - y0)
      let Vr := -(κ / (2 * π * r ^ 2)) * Real.cos (θ - α)
      let Vθ := -(κ / (2 * π * r ^ 2)) * Real.sin (θ - α)
      Vr * Real.sin θ + Vθ * Real.cos θ
  | .vortex x0 y0 Γ, p =>
      let r := gridR (p.1 - x0) (p.2 - y0)
      let θ := gridTheta (p.1 - x0) (p.2 - y0)
      let Vr := (0 : ℝ)
      let Vθ := -Γ / (2 * π * r)
      Vr * Real.sin θ + Vθ * Real.cos θ

/-- Modelled from the spec: `get_potential_at` — uniform `φ = U·x + V·y`,
source `φ = (Λ/2π)·ln r`, doublet `φ = (κ/(2πr))·cos(θ−α)`, vortex
`φ = (Γ/2π)·θ`. -/
def FlowElement.potentialAt : FlowElement → ℝ × ℝ → ℝ
  | .uniform u v, p => u * p.1 + v * p.2
  | .source x0 y0 Λ, p => Λ / (2 * π) * Real.log (gridR (p.1 - x0) (p.2 - y0))
  | .doublet x0 y0 κ α, p =>
      κ / (2 * π * gridR (p.1 - x0) (p.2 - y0)) *
        Real.cos (gridTheta (p.1 - x0) (p.2 - y0) - α)
  | .vortex x0 y0 Γ, p => Γ / (2 * π) * gridTheta (p.1 - x0) (p.2 - y0)

/-- Modelled from the spec: `get_streamfunction_at` — uniform
`ψ = U·y − V·x`, source `ψ = (Λ/2π)·θ`, doublet `ψ = −(κ/(2πr))·sin(θ−α)`,
vortex `ψ = −(Γ/2π)·ln r`. -/
def FlowElement.streamfunctionAt : FlowElement → ℝ × ℝ → ℝ
  | .uniform u v, p => u * p.2 - v * p.1
  | .source x0 y0 Λ, p => Λ / (2 * π) * gridTheta (p.1 - x0) (p.2 - y0)
  | .doublet x0 y0 κ α, p =>
      -(κ / (2 * π * gridR (p.1 - x0) (p.2 - y0))) *
        Real.sin (gridTheta (p.1 - x0) (p.2 - y0) - α)
  | .vortex x0 y0 Γ, p => -(Γ / (2 * π)) * Real.log (gridR (p.1 - x0) (p.2 - y0))

/-- Modelled from the spec: the `u` attribute read by the aggregator from a
Uniform element (`0` on the other variants, which have no such attribute and
are never read). -/
def FlowElement.uniformU : FlowElement → ℝ
  | .uniform u _ => u
  | _ => 0

/-- Modelled from the spec: the `v` attribute read by the aggregator from a
Uniform element. -/
def FlowElement.uniformV : FlowElement → ℝ
  | .uniform _ v => v
  | _ => 0

/-- Accumulator variables of `Flowfield.draw` (`flowfield.py`, lines 79–97),
at one query point: the four running field sums, the cumulative free-stream
components, and the `Cp` normalization constant `V2_infty`. -/
structure AggState where
  xvels : ℝ
  yvels : ℝ
  potential : ℝ
  streamfunction : ℝ
  uCumulative : ℝ
  vCumulative : ℝ
  V2infty : ℝ

/-- Embedding of lines 79–85: zero-initialized field sums and cumulative
free stream, `V2_infty = 1` as the default when no uniform element occurs. -/
def drawInit : AggState := ⟨0, 0, 0, 0, 0, 0, 1⟩

/-- Embedding of one iteration of the loop at lines 88–97: add the element's
four contributions; if it is a Uniform element, accumulate `(u, v)`,
overwrite `V2_infty` with `u_cumulative**2 + v_cumulative**2`, and replace
an exactly-zero value by `1`. -/
def drawStep (p : ℝ × ℝ) (st : AggState) (e : FlowElement) : AggState :=
  let st1 : AggState :=
    { st with
      xvels := st.xvels + e.xVelAt p
      yvels := st.yvels + e.yVelAt p
      potential := st.potential + e.potentialAt p
      streamfunction := st.streamfunction + e.streamfunctionAt p }
  match e with
  | .uniform u v =>
      let uC := st1.uCumulative + u
      let vC := st1.vCumulative + v
      let V2i := uC ^ 2 + vC ^ 2
      { st1 with
        uCumulative := uC
        vCumulative := vC
        V2infty := if V2i = 0 then 1 else V2i }
  | _ => st1

/-- Embedding of the whole accumulation loop of `Flowfield.draw` over the
element collection (`self.objects.values()`), at one query point. -/
def drawFold (p : ℝ × ℝ) (elems : List FlowElement) : AggState :=
  elems.foldl (drawStep p) drawInit

/-- Embedding of lines 99–101 after the loop finishes:
`V2 = x_vels**2 + y_vels**2; Cp = 1 - V2/V2_infty` with the final
accumulator values. -/
def drawCp (p : ℝ × ℝ) (elems : List FlowElement) : ℝ :=
  1 - ((drawFold p elems).xvels ^ 2 + (drawFold p elems).yvels ^ 2) /
    (drawFold p elems).V2infty

/-- Sum of the `u` components over the Uniform elements of a collection. -/
def sumUniformU (elems : List FlowElement) : ℝ :=
  (elems.map FlowElement.uniformU).sum

/-- Sum of the `v` components over the Uniform elements of a collection. -/
def sumUniformV (elems : List FlowElement) : ℝ :=
  (elems.map FlowElement.uniformV).sum

/-- Whether the collection contains at least one Uniform element. -/
def hasUniform (elems : List FlowElement) : Bool :=
  elems.any FlowElement.isUniform

/-!
## Theorems
-/

/-- C1: for every valid input (`Lx₁ ≤ Lx₂`, `Ly₁ ≤ Ly₂`, `Vinf ≥ 0`, `R ≥ 0`)
and every grid point `(x, y)` with `r = √(x²+y²) > 0`, the cylinder solver's
grid fields `Vr, Vθ, Vmag, Vx, Vy, φ` — and, for `R > 0`, `ψ` — computed at
`r = √(x²+y²)`, `θ = atan2(y, x)` agree with the closed forms stated in the
spec. -/
theorem cylGrid_matches_closed_forms
    (Lx₁ Lx₂ Ly₁ Ly₂ Vinf R Γ x y : ℝ)
    (hLx : Lx₁ ≤ Lx₂) (hLy : Ly₁ ≤ Ly₂) (hV : 0 ≤ Vinf) (hR : 0 ≤ R)
    (hr : 0 < gridR x y) :
    cylVr Vinf R (gridR x y) (gridTheta x y) =
      specVr Vinf R (gridR x y) (gridTheta x y) ∧
    cylVtheta Vinf R Γ (gridR x y) (gridTheta x y) =
      specVtheta Vinf R Γ (gridR x y) (gridTheta x y) ∧
    cylVmag Vinf R Γ (gridR x y) (gridTheta x y) =
      specVmag Vinf R Γ (gridR x y) (gridTheta x y) ∧
    cylVx Vinf R Γ (gridR x y) (gridTheta x y) =
      specVx Vinf R Γ (gridR x y) (gridTheta x y) ∧
    cylVy Vinf R Γ (gridR x y) (gridTheta x y) =
      specVy Vinf R Γ (gridR x y) (gridTheta x y) ∧
    cylPhi Vinf R Γ (gridR x y) (gridTheta x y) =
      specPhi Vinf R Γ (gridR x y) (gridTheta x y) ∧
    (0 < R →
      cylPsi Vinf R Γ (gridR x y) (gridTheta x y) =
        specPsi Vinf R Γ (gridR x y) (gridTheta x y)) := by
  set r := gridR x y
  set θ := gridTheta x y
  have hVr : cylVr Vinf R r θ = specVr Vinf R r θ := by
    unfold cylVr specVr; ring_nf
  have hVt : cylVtheta Vinf R Γ r θ = specVtheta Vinf R Γ r θ := by
    unfold cylVtheta specVtheta; ring_nf
  refine ⟨hVr, hVt, ?_, ?_, ?_, ?_, fun _ => ?_⟩
  · unfold cylVmag specVmag
    rw [hVr, hVt]
    congr 1
    ring
  · unfold cylVx specVx
    rw [hVr, hVt]
  · unfold cylVy specVy
    rw [hVr, hVt]
  · unfold cylPhi specPhi; ring_nf
  · unfold cylPsi specPsi; ring_nf

/-- Witness for C1 at the concrete input `Lx = (-2, 2)`, `Ly = (-2, 2)`,
`Vinf = 1`, `R = 1`, `Γ = 0`, grid point `(1, 0)` (where `r = 1 > 0`). -/
theorem cylGrid_matches_closed_forms_witness :
    (-2 : ℝ) ≤ 2 ∧ (0 : ℝ) ≤ 1 ∧ 0 < gridR 1 0 ∧
    (cylVr 1 1 (gridR 1 0) (gridTheta 1 0) =
      specVr 1 1 (gridR 1 0) (gridTheta 1 0) ∧
    cylVtheta 1 1 0 (gridR 1 0) (gridTheta 1 0) =
      specVtheta 1 1 0 (gridR 1 0) (gridTheta 1 0) ∧
    cylVmag 1 1 0 (gridR 1 0) (gridTheta 1 0) =
      specVmag 1 1 0 (gridR 1 0) (gridTheta 1 0) ∧
    cylVx 1 1 0 (gridR 1 0) (gridTheta 1 0) =
      specVx 1 1 0 (gridR 1 0) (gridTheta 1 0) ∧
    cylVy 1 1 0 (gridR 1 0) (gridTheta 1 0) =
      specVy 1 1 0 (gridR 1 0) (gridTheta 1 0) ∧
    cylPhi 1 1 0 (gridR 1 0) (gridTheta 1 0) =
      specPhi 1 1 0 (gridR 1 0) (gridTheta 1 0) ∧
    ((0 : ℝ) < 1 →
      cylPsi 1 1 0 (gridR 1 0) (gridTheta 1 0) =
        specPsi 1 1 0 (gridR 1 0) (gridTheta 1 0))) :=
  have hr : 0 < gridR 1 0 := by
    norm_num [gridR, Real.sqrt_one]
  ⟨by norm_num, by norm_num, hr,
    cylGrid_matches_closed_forms (-2) 2 (-2) 2 1 1 0 1 0
      (by norm_num) (by norm_num) (by norm_num) (by norm_num) hr⟩

/-- Helper: the stagnation computation never produces an invalid-parameter
error; its only failure mode is the zero-denominator division. -/
theorem cylStagnationChecked_not_invalid (Vinf R Γ : ℝ) (msg : String) :
    cylStagnationChecked Vinf R Γ ≠ Except.error (CylError.invalidParamError msg) := by
  unfold cylStagnationChecked
  split <;> simp

/-- C3: a `plotRotatingCylinder` call reports an invalid-parameter error
exactly when `Lx[0] > Lx[1]`, `Ly[0] > Ly[1]`, `Vinf < 0` or `R < 0`: those
four checks run before the main calculations (on an invalid input the call
fails fast and returns no partial result), and they are the only
up-front validations — on an input passing all four, the call never
reports an invalid-parameter error. -/
theorem cylRun_invalidParam_iff (Lx Ly : ℝ × ℝ) (Vinf R Γ : ℝ) :
    (∃ msg, cylRun Lx Ly Vinf R Γ = Except.error (CylError.invalidParamError msg)) ↔
      Lx.1 > Lx.2 ∨ Ly.1 > Ly.2 ∨ Vinf < 0 ∨ R < 0 := by
  constructor
  · rintro ⟨msg, hmsg⟩
    by_contra hcon
    push_neg at hcon
    obtain ⟨h1, h2, h3, h4⟩ := hcon
    unfold cylRun at hmsg
    rw [if_neg (not_lt.mpr h1), if_neg (not_lt.mpr h2), if_neg (not_lt.mpr h3),
      if_neg (not_lt.mpr h4)] at hmsg
    cases hst : cylStagnationChecked Vinf R Γ with
    | error e =>
        rw [hst] at hmsg
        simp only [Except.error.injEq] at hmsg
        exact cylStagnationChecked_not_invalid Vinf R Γ msg (hmsg ▸ hst)
    | ok st =>
        rw [hst] at hmsg
        simp at hmsg
  · intro h
    unfold cylRun
    by_cases h1 : Lx.1 > Lx.2
    · exact ⟨_, by rw [if_pos h1]⟩
    · rw [if_neg h1]
      by_cases h2 : Ly.1 > Ly.2
      · exact ⟨_, by rw [if_pos h2]⟩
      · rw [if_neg h2]
        by_cases h3 : Vinf < 0
        · exact ⟨_, by rw [if_pos h3]⟩
        · rw [if_neg h3]
          by_cases h4 : R < 0
          · exact ⟨_, by rw [if_pos h4]⟩
          · rcases h with h | h | h | h
            · exact absurd h h1
            · exact absurd h h2
            · exact absurd h h3
            · exact absurd h h4

/-- Witness for C3 at the concrete invalid input `Lx = (5, -5)` (reversed
x-extent), which is rejected up front. -/
theorem cylRun_invalidParam_iff_witness :
    ∃ msg, cylRun (5, -5) (-5, 5) 1 1 0 =
      Except.error (CylError.invalidParamError msg) :=
  (cylRun_invalidParam_iff (5, -5) (-5, 5) 1 1 0).mpr (Or.inl (by norm_num))

/-- C4 (code bug): on the otherwise-valid input `Lx = (-2, 2)`,
`Ly = (-2, 2)`, `Vinf = 0`, `R = 1`, `Γ = 0`, the call does not skip the
stagnation-point computation: line 65 divides by `4π·Vinf·R = 0` with no
guard, so the call fails instead of returning fields with NaN/Inf entries. -/
theorem cylRun_fails_at_zero_Vinf :
    cylRun (-2, 2) (-2, 2) 0 1 0 = Except.error CylError.zeroDivisionError := by
  unfold cylRun cylStagnationChecked
  norm_num

/-- C9: with `Γ = 0`, `Vinf > 0` and `R > 0`, the surface pressure
coefficient `Cp(θ) = 1 − Vmag(R,θ)²/Vinf²` is symmetric about the x-axis:
`Cp(θ) = Cp(−θ) = Cp(2π − θ)`. -/
theorem cylCpS_symmetric (Vinf R θ : ℝ) (hV : 0 < Vinf) (hR : 0 < R) :
    cylCpS Vinf R 0 θ = cylCpS Vinf R 0 (-θ) ∧
    cylCpS Vinf R 0 θ = cylCpS Vinf R 0 (2 * π - θ) := by
  have hRR : R * R ≠ 0 := by positivity
  have hval : ∀ φ : ℝ, cylCpS Vinf R 0 φ =
      1 - (2 * Vinf * Real.sin φ) * (2 * Vinf * Real.sin φ) / (Vinf * Vinf) := by
    intro φ
    have hsq : cylVmagS Vinf R 0 φ * cylVmagS Vinf R 0 φ =
        cylVrS Vinf R φ * cylVrS Vinf R φ +
          cylVthetaS Vinf R 0 φ * cylVthetaS Vinf R 0 φ :=
      Real.mul_self_sqrt (add_nonneg (mul_self_nonneg _) (mul_self_nonneg _))
    unfold cylCpS
    rw [hsq]
    unfold cylVrS cylVthetaS
    rw [div_self hRR]
    ring
  refine ⟨?_, ?_⟩
  · rw [hval, hval, Real.sin_neg]
    ring
  · rw [hval, hval,
      show Real.sin (2 * π - θ) = -Real.sin θ by
        rw [Real.sin_sub, Real.sin_two_pi, Real.cos_two_pi]; ring]
    ring

/-- Witness for C9 at the concrete input `Vinf = 1`, `R = 1`, `θ = π/3`. -/
theorem cylCpS_symmetric_witness :
    (0 : ℝ) < 1 ∧
    (cylCpS 1 1 0 (π / 3) = cylCpS 1 1 0 (-(π / 3)) ∧
      cylCpS 1 1 0 (π / 3) = cylCpS 1 1 0 (2 * π - π / 3)) :=
  ⟨by norm_num, cylCpS_symmetric 1 1 (π / 3) (by norm_num) (by norm_num)⟩

/-- C10: whenever `condition = Γ/(4π·Vinf·R) > 1` with `Vinf > 0`, `R > 0`
(hence `Γ > 0`), the two off-surface stagnation radii
`r₁ = t + √(t²−R²)` and `r₂ = t − √(t²−R²)` with `t = Γ/(4π·Vinf)` are
exactly what the solver returns, and satisfy `r₁·r₂ = R²` and
`r₁ > R > r₂ > 0`, so exactly one of the two reported stagnation points
lies strictly inside the body. -/
theorem cylRStag_off_surface (Vinf R Γ : ℝ) (hV : 0 < Vinf) (hR : 0 < R)
    (hc : 1 < cylCondition Vinf R Γ) :
    0 < Γ ∧
    cylRStag Vinf R Γ =
      [cylTmpStag Vinf Γ + Real.sqrt (cylTmpStag Vinf Γ ^ 2 - R ^ 2),
       cylTmpStag Vinf Γ - Real.sqrt (cylTmpStag Vinf Γ ^ 2 - R ^ 2)] ∧
    (cylTmpStag Vinf Γ + Real.sqrt (cylTmpStag Vinf Γ ^ 2 - R ^ 2)) *
        (cylTmpStag Vinf Γ - Real.sqrt (cylTmpStag Vinf Γ ^ 2 - R ^ 2)) = R ^ 2 ∧
    R < cylTmpStag Vinf Γ + Real.sqrt (cylTmpStag Vinf Γ ^ 2 - R ^ 2) ∧
    cylTmpStag Vinf Γ - Real.sqrt (cylTmpStag Vinf Γ ^ 2 - R ^ 2) < R ∧
    0 < cylTmpStag Vinf Γ - Real.sqrt (cylTmpStag Vinf Γ ^ 2 - R ^ 2) := by
  have hden : (0 : ℝ) < 4 * π * Vinf * R := by positivity
  have hΓ : 4 * π * Vinf * R < Γ := by
    have := (one_lt_div hden).mp hc
    linarith
  have hΓpos : 0 < Γ := lt_trans hden hΓ
  have ht : R < cylTmpStag Vinf Γ := by
    unfold cylTmpStag
    rw [lt_div_iff₀ (by positivity : (0 : ℝ) < 4 * π * Vinf)]
    nlinarith
  set t := cylTmpStag Vinf Γ with htdef
  have htpos : 0 < t := lt_trans hR ht
  have hdiff : 0 < t ^ 2 - R ^ 2 := by nlinarith
  set s := Real.sqrt (t ^ 2 - R ^ 2) with hsdef
  have hs2 : s ^ 2 = t ^ 2 - R ^ 2 := Real.sq_sqrt hdiff.le
  have hspos : 0 < s := Real.sqrt_pos.mpr hdiff
  have hprod : (t + s) * (t - s) = R ^ 2 := by linear_combination -hs2
  have hts : 0 < t - s := by
    by_contra hcon
    push_neg at hcon
    nlinarith
  refine ⟨hΓpos, ?_, hprod, by nlinarith, ?_, hts⟩
  · unfold cylRStag
    rw [if_neg (not_lt.mpr hc.le), if_neg hc.ne']
  · by_contra hcon
    push_neg at hcon
    nlinarith

/-- Witness for C10 at the concrete input `Vinf = 1`, `R = 1`, `Γ = 8π`
(where `condition = 2 > 1`). -/
theorem cylRStag_off_surface_witness :
    1 < cylCondition 1 1 (8 * π) ∧
    (0 : ℝ) < 8 * π ∧
    (cylTmpStag 1 (8 * π) + Real.sqrt (cylTmpStag 1 (8 * π) ^ 2 - 1 ^ 2)) *
        (cylTmpStag 1 (8 * π) - Real.sqrt (cylTmpStag 1 (8 * π) ^ 2 - 1 ^ 2)) =
      1 ^ 2 :=
  have hc : 1 < cylCondition 1 1 (8 * π) := by
    unfold cylCondition
    rw [show (8 : ℝ) * π / (4 * π * 1 * 1) = 2 by
      field_simp
      ring]
    norm_num
  ⟨hc, (cylRStag_off_surface 1 1 (8 * π) (by norm_num) (by norm_num) hc).1,
    (cylRStag_off_surface 1 1 (8 * π) (by norm_num) (by norm_num) hc).2.2.1⟩

/-- C2: with `Vinf > 0` and `R > 0`, the stagnation output follows the
three-regime piecewise definition keyed by `condition = Γ/(4π·Vinf·R)`:
two surface points at `θ = {π − asin(−condition), asin(−condition)}`
(normalized into `[0, 2π)` by adding `2π` to negative values, `r = R`) when
`condition < 1`; the single point `θ = 3π/2`, `r = R` when `condition = 1`;
and two points at `θ = 3π/2` with `r = t ± √(t²−R²)`, `t = Γ/(4π·Vinf)`,
when `condition > 1` — in particular for `R = 1`, `Vinf = 1`, `Γ = 8π`
the radii are `2 ± √3 ≈ 3.732` and `0.268`. -/
theorem cylStagnation_three_regimes :
    (∀ Vinf R Γ : ℝ, 0 < Vinf → 0 < R →
      (cylCondition Vinf R Γ < 1 →
        cylThetaStag Vinf R Γ =
          [normalizeTheta (π - Real.arcsin (-cylCondition Vinf R Γ)),
           normalizeTheta (Real.arcsin (-cylCondition Vinf R Γ))] ∧
        cylRStag Vinf R Γ = [R, R]) ∧
      (cylCondition Vinf R Γ = 1 →
        cylThetaStag Vinf R Γ = [3 * π / 2] ∧ cylRStag Vinf R Γ = [R]) ∧
      (1 < cylCondition Vinf R Γ →
        cylThetaStag Vinf R Γ = [3 * π / 2, 3 * π / 2] ∧
        cylRStag Vinf R Γ =
          [cylTmpStag Vinf Γ + Real.sqrt (cylTmpStag Vinf Γ ^ 2 - R ^ 2),
           cylTmpStag Vinf Γ - Real.sqrt (cylTmpStag Vinf Γ ^ 2 - R ^ 2)])) ∧
    cylRStag 1 1 (8 * π) = [2 + Real.sqrt 3, 2 - Real.sqrt 3] ∧
    |2 + Real.sqrt 3 - 3.732| < 1 / 1000 ∧
    |2 - Real.sqrt 3 - 0.268| < 1 / 1000 := by
  have hsu : Real.sqrt 3 < 1.733 := by
    rw [show (1.733 : ℝ) = 1.733 from rfl]
    exact (Real.sqrt_lt' (by norm_num)).mpr (by norm_num)
  have hsl : (1.731 : ℝ) < Real.sqrt 3 :=
    (Real.lt_sqrt (by norm_num)).mpr (by norm_num)
  refine ⟨?_, ?_, ?_, ?_⟩
  · intro Vinf R Γ hV hR
    refine ⟨fun h => ⟨?_, ?_⟩, fun h => ⟨?_, ?_⟩, fun h => ⟨?_, ?_⟩⟩
    · unfold cylThetaStag
      rw [if_pos h]
    · unfold cylRStag
      rw [if_pos h]
    · unfold cylThetaStag
      rw [if_neg (by rw [h]; exact lt_irrefl 1), if_pos h]
    · unfold cylRStag
      rw [if_neg (by rw [h]; exact lt_irrefl 1), if_pos h]
    · unfold cylThetaStag
      rw [if_neg (not_lt.mpr h.le), if_neg h.ne']
    · unfold cylRStag
      rw [if_neg (not_lt.mpr h.le), if_neg h.ne']
  · have hc : cylCondition 1 1 (8 * π) = 2 := by
      unfold cylCondition
      field_simp
      ring
    have ht : cylTmpStag 1 (8 * π) = 2 := by
      unfold cylTmpStag
      field_simp
      ring
    unfold cylRStag
    rw [hc, if_neg (by norm_num), if_neg (by norm_num), ht]
    norm_num
  · rw [abs_lt]
    constructor <;> nlinarith
  · rw [abs_lt]
    constructor <;> nlinarith

/-- Witness for C2 at the concrete input `Vinf = 1`, `R = 1`, `Γ = 0`
(where `condition = 0 < 1`). -/
theorem cylStagnation_three_regimes_witness :
    (0 : ℝ) < 1 ∧ cylCondition 1 1 0 < 1 ∧
    (cylThetaStag 1 1 0 =
        [normalizeTheta (π - Real.arcsin (-cylCondition 1 1 0)),
         normalizeTheta (Real.arcsin (-cylCondition 1 1 0))] ∧
      cylRStag 1 1 0 = [1, 1]) :=
  have hc : cylCondition 1 1 0 < 1 := by
    unfold cylCondition
    norm_num
  ⟨by norm_num, hc,
    (cylStagnation_three_regimes.1 1 1 0 (by norm_num) (by norm_num)).1 hc⟩

/-- C8 (counterexample): the surface angles are not all inside the
half-open interval `[0, 2π)` — `np.linspace(0, 2*np.pi, 250)` includes the
right endpoint, so the sample at index 249 equals `2π` exactly. -/
theorem cylThetaS_not_half_open :
    ¬ ∀ θ ∈ cylThetaS cylSurfaceN, θ < 2 * π := by
  intro h
  have hmem : (2 * π : ℝ) ∈ cylThetaS cylSurfaceN := by
    unfold cylThetaS linspace cylSurfaceN
    refine List.mem_map.mpr ⟨249, List.mem_range.mpr (by norm_num), ?_⟩
    push_cast
    norm_num
  exact lt_irrefl (2 * π) (h _ hmem)

/-- C8 (amended): the surface evaluation samples `θ` at `n` equally spaced
values `θᵢ = 2π·i/(n−1)` covering the closed interval `[0, 2π]` — both
endpoints included — at fixed radius `r = R`, with the sample count a
parameter whose value in the source is the local constant `n = 250`. -/
theorem cylThetaS_closed_interval (n i : ℕ) (R : ℝ) (hn : 2 ≤ n) (hi : i < n) :
    (cylThetaS n).length = n ∧
    (cylThetaS n)[i]? = some (2 * π * i / ((n - 1 : ℕ) : ℝ)) ∧
    (∀ θ ∈ cylThetaS n, 0 ≤ θ ∧ θ ≤ 2 * π) ∧
    (0 : ℝ) ∈ cylThetaS n ∧
    (2 * π : ℝ) ∈ cylThetaS n ∧
    cylRS R n = List.replicate n R ∧
    cylSurfaceN = 250 := by
  have hc0 : (0 : ℝ) < ((n - 1 : ℕ) : ℝ) := by
    have : 1 ≤ n - 1 := by omega
    exact_mod_cast Nat.lt_of_lt_of_le Nat.zero_lt_one this
  refine ⟨?_, ?_, ?_, ?_, ?_, rfl, rfl⟩
  · unfold cylThetaS linspace
    rw [List.length_map, List.length_range]
  · unfold cylThetaS linspace
    rw [List.getElem?_map, List.getElem?_range hi, Option.map_some']
    congr 1
    ring
  · intro θ hθ
    obtain ⟨j, hj, rfl⟩ := List.mem_map.mp hθ
    have hjn : j < n := List.mem_range.mp hj
    have hj' : (j : ℝ) ≤ ((n - 1 : ℕ) : ℝ) :=
      Nat.cast_le.mpr (by omega)
    refine ⟨?_, ?_⟩ <;> rw [zero_add, sub_zero]
    · positivity
    · rw [div_le_iff₀ hc0]
      nlinarith [Real.pi_pos]
  · refine List.mem_map.mpr ⟨0, List.mem_range.mpr (by omega), ?_⟩
    norm_num
  · refine List.mem_map.mpr ⟨n - 1, List.mem_range.mpr (by omega), ?_⟩
    rw [zero_add, sub_zero, mul_div_assoc, div_self (ne_of_gt hc0), mul_one]

/-- Witness for the amended C8 at the concrete input `n = 250`, `i = 249`,
`R = 1`. -/
theorem cylThetaS_closed_interval_witness :
    2 ≤ 250 ∧ 249 < 250 ∧
    ((cylThetaS 250).length = 250 ∧
      (cylThetaS 250)[249]? = some (2 * π * 249 / ((250 - 1 : ℕ) : ℝ)) ∧
      (∀ θ ∈ cylThetaS 250, 0 ≤ θ ∧ θ ≤ 2 * π) ∧
      (0 : ℝ) ∈ cylThetaS 250 ∧
      (2 * π : ℝ) ∈ cylThetaS 250 ∧
      cylRS 1 250 = List.replicate 250 1 ∧
      cylSurfaceN = 250) :=
  ⟨by norm_num, by norm_num,
    by
      have h := cylThetaS_closed_interval 250 249 1 (by norm_num) (by norm_num)
      exact_mod_cast h⟩

/-- Helper: a collection with no Uniform element contributes nothing to the
cumulative free-stream `u` component. -/
theorem sumUniformU_eq_zero (elems : List FlowElement)
    (h : hasUniform elems = false) : sumUniformU elems = 0 := by
  induction elems with
  | nil => simp [sumUniformU]
  | cons e es ih =>
      simp only [hasUniform, List.any_cons, Bool.or_eq_false_iff] at h
      obtain ⟨h1, h2⟩ := h
      have h3 := ih h2
      cases e with
      | uniform u v => simp [FlowElement.isUniform] at h1
      | source x0 y0 s =>
          simp only [sumUniformU, List.map_cons, List.sum_cons] at h3 ⊢
          simp [FlowElement.uniformU, h3]
      | doublet x0 y0 s a =>
          simp only [sumUniformU, List.map_cons, List.sum_cons] at h3 ⊢
          simp [FlowElement.uniformU, h3]
      | vortex x0 y0 s =>
          simp only [sumUniformU, List.map_cons, List.sum_cons] at h3 ⊢
          simp [FlowElement.uniformU, h3]

/-- Helper: a collection with no Uniform element contributes nothing to the
cumulative free-stream `v` component. -/
theorem sumUniformV_eq_zero (elems : List FlowElement)
    (h : hasUniform elems = false) : sumUniformV elems = 0 := by
  induction elems with
  | nil => simp [sumUniformV]
  | cons e es ih =>
      simp only [hasUniform, List.any_cons, Bool.or_eq_false_iff] at h
      obtain ⟨h1, h2⟩ := h
      have h3 := ih h2
      cases e with
      | uniform u v => simp [FlowElement.isUniform] at h1
      | source x0 y0 s =>
          simp only [sumUniformV, List.map_cons, List.sum_cons] at h3 ⊢
          simp [FlowElement.uniformV, h3]
      | doublet x0 y0 s a =>
          simp only [sumUniformV, List.map_cons, List.sum_cons] at h3 ⊢
          simp [FlowElement.uniformV, h3]
      | vortex x0 y0 s =>
          simp only [sumUniformV, List.map_cons, List.sum_cons] at h3 ⊢
          simp [FlowElement.uniformV, h3]

/-- Helper: the final `V2_infty` of the accumulation loop, for an arbitrary
starting state — it is rewritten at each Uniform element from the running
cumulative sums (with the zero fallback), and untouched otherwise, so its
final value is determined by the totals if any Uniform element occurs and
is the starting value otherwise. -/
theorem drawFold_V2infty (p : ℝ × ℝ) (elems : List FlowElement) :
    ∀ st : AggState,
      (elems.foldl (drawStep p) st).V2infty =
        if hasUniform elems then
          (if (st.uCumulative + sumUniformU elems) ^ 2 +
              (st.vCumulative + sumUniformV elems) ^ 2 = 0 then 1
           else (st.uCumulative + sumUniformU elems) ^ 2 +
              (st.vCumulative + sumUniformV elems) ^ 2)
        else st.V2infty := by
  induction elems with
  | nil => intro st; simp [hasUniform, sumUniformU, sumUniformV]
  | cons e es ih =>
      intro st
      rw [List.foldl_cons, ih]
      cases e with
      | uniform u v =>
          have htop : hasUniform (FlowElement.uniform u v :: es) = true := by
            simp [hasUniform, FlowElement.isUniform]
          have h1 : sumUniformU (FlowElement.uniform u v :: es) =
              u + sumUniformU es := by
            simp [sumUniformU, FlowElement.uniformU]
          have h2 : sumUniformV (FlowElement.uniform u v :: es) =
              v + sumUniformV es := by
            simp [sumUniformV, FlowElement.uniformV]
          have hA : (drawStep p st (FlowElement.uniform u v)).uCumulative =
              st.uCumulative + u := by
            simp [drawStep]
          have hB : (drawStep p st (FlowElement.uniform u v)).vCumulative =
              st.vCumulative + v := by
            simp [drawStep]
          by_cases hU : hasUniform es
          · rw [htop, if_pos rfl, hU, if_pos rfl, hA, hB, h1, h2]
            simp only [← add_assoc]
          · have hU' : hasUniform es = false := by simpa using hU
            have hzU := sumUniformU_eq_zero es hU'
            have hzV := sumUniformV_eq_zero es hU'
            have hC : (drawStep p st (FlowElement.uniform u v)).V2infty =
                if (st.uCumulative + u) ^ 2 + (st.vCumulative + v) ^ 2 = 0 then 1
                else (st.uCumulative + u) ^ 2 + (st.vCumulative + v) ^ 2 := by
              simp [drawStep]
            rw [htop, if_pos rfl, hU', if_neg (by simp), hC, h1, h2, hzU, hzV,
              add_zero, add_zero]
      | source x0 y0 s =>
          have hsame : hasUniform (FlowElement.source x0 y0 s :: es) =
              hasUniform es := by
            simp [hasUniform, FlowElement.isUniform]
          rw [hsame]
          simp [drawStep, sumUniformU, sumUniformV, FlowElement.uniformU,
            FlowElement.uniformV]
      | doublet x0 y0 s a =>
          have hsame : hasUniform (FlowElement.doublet x0 y0 s a :: es) =
              hasUniform es := by
            simp [hasUniform, FlowElement.isUniform]
          rw [hsame]
          simp [drawStep, sumUniformU, sumUniformV, FlowElement.uniformU,
            FlowElement.uniformV]
      | vortex x0 y0 s =>
          have hsame : hasUniform (FlowElement.vortex x0 y0 s :: es) =
              hasUniform es := by
            simp [hasUniform, FlowElement.isUniform]
          rw [hsame]
          simp [drawStep, sumUniformU, sumUniformV, FlowElement.uniformU,
            FlowElement.uniformV]

/-- C6: for a non-empty element collection, the free-stream speed squared
used to normalize `Cp` equals `(Σ u over Uniform elements)² +
(Σ v over Uniform elements)²`, except that an exactly-zero value (no
Uniform element, or a perfectly cancelling combination) is replaced by `1`,
so the `Cp` denominator is never zero. -/
theorem drawV2infty_fallback (p : ℝ × ℝ) (elems : List FlowElement)
    (hne : elems ≠ []) :
    ((drawFold p elems).V2infty =
      if sumUniformU elems ^ 2 + sumUniformV elems ^ 2 = 0 then 1
      else sumUniformU elems ^ 2 + sumUniformV elems ^ 2) ∧
    (drawFold p elems).V2infty ≠ 0 := by
  have hmain : (drawFold p elems).V2infty =
      if sumUniformU elems ^ 2 + sumUniformV elems ^ 2 = 0 then 1
      else sumUniformU elems ^ 2 + sumUniformV elems ^ 2 := by
    rw [drawFold, drawFold_V2infty p elems drawInit]
    by_cases hU : hasUniform elems
    · simp [hU, drawInit]
    · have hU' : hasUniform elems = false := by simpa using hU
      have hzU := sumUniformU_eq_zero elems hU'
      have hzV := sumUniformV_eq_zero elems hU'
      simp [hU', drawInit, hzU, hzV]
  refine ⟨hmain, ?_⟩
  rw [hmain]
  split_ifs with h0
  · exact one_ne_zero
  · exact h0

/-- Witness for C6 at the concrete input: two Uniform elements `(1, 0)` and
`(2, 1)` queried at the point `(0, 0)`. -/
theorem drawV2infty_fallback_witness :
    [FlowElement.uniform 1 0, FlowElement.uniform 2 1] ≠ [] ∧
    ((drawFold (0, 0) [FlowElement.uniform 1 0, FlowElement.uniform 2 1]).V2infty =
      if sumUniformU [FlowElement.uniform 1 0, FlowElement.uniform 2 1] ^ 2 +
          sumUniformV [FlowElement.uniform 1 0, FlowElement.uniform 2 1] ^ 2 = 0
      then 1
      else sumUniformU [FlowElement.uniform 1 0, FlowElement.uniform 2 1] ^ 2 +
          sumUniformV [FlowElement.uniform 1 0, FlowElement.uniform 2 1] ^ 2) ∧
    (drawFold (0, 0) [FlowElement.uniform 1 0, FlowElement.uniform 2 1]).V2infty ≠ 0 :=
  ⟨by simp,
    (drawV2infty_fallback (0, 0) _ (by simp)).1,
    (drawV2infty_fallback (0, 0) _ (by simp)).2⟩

/-- C7 (counterexample): for the single degenerate Uniform element
`(U, V) = (0, 0)`, the aggregated pressure coefficient is not `0` — the
fallback denominator gives `Cp = 1 − 0/1 = 1`. -/
theorem drawCp_degenerate_uniform_ne_zero :
    drawCp (3, 4) [FlowElement.uniform 0 0] ≠ 0 := by
  unfold drawCp drawFold
  norm_num [drawStep, drawInit, FlowElement.xVelAt, FlowElement.yVelAt,
    FlowElement.potentialAt, FlowElement.streamfunctionAt]

/-- C7 (amended): for a collection holding exactly one Uniform element
`(U, V)`, the aggregated velocity at every query point equals `(U, V)`
exactly, and the aggregated `Cp` equals `0` at every query point whenever
`(U, V) ≠ (0, 0)`; in the degenerate case `U = V = 0` the substituted
fallback denominator yields `Cp = 1` instead. -/
theorem drawUniform_velocity_Cp (U V : ℝ) (p : ℝ × ℝ) :
    (drawFold p [FlowElement.uniform U V]).xvels = U ∧
    (drawFold p [FlowElement.uniform U V]).yvels = V ∧
    (¬(U = 0 ∧ V = 0) → drawCp p [FlowElement.uniform U V] = 0) ∧
    (U = 0 → V = 0 → drawCp p [FlowElement.uniform U V] = 1) := by
  have hst : drawFold p [FlowElement.uniform U V] =
      ⟨U, V, U * p.1 + V * p.2, U * p.2 - V * p.1, U, V,
        if U ^ 2 + V ^ 2 = 0 then 1 else U ^ 2 + V ^ 2⟩ := by
    unfold drawFold
    simp [drawStep, drawInit, FlowElement.xVelAt, FlowElement.yVelAt,
      FlowElement.potentialAt, FlowElement.streamfunctionAt]
  refine ⟨by rw [hst], by rw [hst], fun h => ?_, fun hU hV => ?_⟩
  · have hS : U ^ 2 + V ^ 2 ≠ 0 := by
      intro h0
      exact h ⟨by nlinarith [sq_nonneg U, sq_nonneg V],
        by nlinarith [sq_nonneg U, sq_nonneg V]⟩
    unfold drawCp
    rw [hst]
    simp only
    rw [if_neg hS, div_self hS]
    ring
  · subst hU
    subst hV
    unfold drawCp
    rw [hst]
    norm_num

/-- Witness for the amended C7 at the concrete input `U = 1`, `V = 2`,
query point `(5, 6)`. -/
theorem drawUniform_velocity_Cp_witness :
    (drawFold (5, 6) [FlowElement.uniform 1 2]).xvels = 1 ∧
    (drawFold (5, 6) [FlowElement.uniform 1 2]).yvels = 2 ∧
    drawCp (5, 6) [FlowElement.uniform 1 2] = 0 :=
  ⟨(drawUniform_velocity_Cp 1 2 (5, 6)).1,
    (drawUniform_velocity_Cp 1 2 (5, 6)).2.1,
    (drawUniform_velocity_Cp 1 2 (5, 6)).2.2.1 (by norm_num)⟩

/-- Helper: away from the origin, `r·cos θ` recovers the x-offset. -/
theorem gridR_cos (x y : ℝ) (h : 0 < gridR x y) :
    gridR x y * Real.cos (gridTheta x y) = x := by
  have habs : Complex.abs ⟨x, y⟩ = gridR x y := by
    rw [Complex.abs_apply, Complex.normSq_mk]
    rfl
  have hz : (⟨x, y⟩ : ℂ) ≠ 0 := by
    intro h0
    have hre : x = 0 := by
      have := congrArg Complex.re h0
      simpa using this
    have him : y = 0 := by
      have := congrArg Complex.im h0
      simpa using this
    rw [hre, him] at h
    unfold gridR at h
    norm_num at h
  unfold gridTheta arctan2
  rw [Complex.cos_arg hz, habs]
  have : (⟨x, y⟩ : ℂ).re = x := rfl
  rw [this]
  field_simp

/-- Helper: away from the origin, `r·sin θ` recovers the y-offset. -/
theorem gridR_sin (x y : ℝ) (h : 0 < gridR x y) :
    gridR x y * Real.sin (gridTheta x y) = y := by
  have habs : Complex.abs ⟨x, y⟩ = gridR x y := by
    rw [Complex.abs_apply, Complex.normSq_mk]
    rfl
  unfold gridTheta arctan2
  rw [Complex.sin_arg, habs]
  have : (⟨x, y⟩ : ℂ).im = y := rfl
  rw [this]
  field_simp

/-- Helper: the angle of the point `(1, 0)` is zero. -/
theorem arctan2_zero_one : arctan2 0 1 = 0 := by
  unfold arctan2
  have h1 : (⟨1, 0⟩ : ℂ) = 1 := rfl
  rw [h1, Complex.arg_one]

/-- Helper: the first component (`du`) of the preset contribution, written
out with the shared polar helpers. -/
theorem presetContribution_fst (Vinf R x0 y0 x y : ℝ) :
    (presetContribution Vinf R x0 y0 x y).1 =
      Vinf * Real.cos (gridTheta (x - x0) (y - y0)) *
          (1 - (R / gridR (x - x0) (y - y0)) ^ 2) *
          Real.cos (gridTheta (x - x0) (y - y0)) -
        -Vinf * Real.sin (gridTheta (x - x0) (y - y0)) *
          (1 + (R / gridR (x - x0) (y - y0)) ^ 2) *
          Real.sin (gridTheta (x - x0) (y - y0)) := rfl

/-- Helper: the second component (`dv`) of the preset contribution. -/
theorem presetContribution_snd (Vinf R x0 y0 x y : ℝ) :
    (presetContribution Vinf R x0 y0 x y).2.1 =
      Vinf * Real.cos (gridTheta (x - x0) (y - y0)) *
          (1 - (R / gridR (x - x0) (y - y0)) ^ 2) *
          Real.sin (gridTheta (x - x0) (y - y0)) +
        -Vinf * Real.sin (gridTheta (x - x0) (y - y0)) *
          (1 + (R / gridR (x - x0) (y - y0)) ^ 2) *
          Real.cos (gridTheta (x - x0) (y - y0)) := rfl

/-- Helper: the third component (`dphi`) of the preset contribution. -/
theorem presetContribution_phi (Vinf R x0 y0 x y : ℝ) :
    (presetContribution Vinf R x0 y0 x y).2.2.1 =
      Vinf * gridR (x - x0) (y - y0) * Real.cos (gridTheta (x - x0) (y - y0)) *
        (1 + (R / gridR (x - x0) (y - y0)) ^ 2) := rfl

/-- Helper: the fourth component (`dpsi`) of the preset contribution. -/
theorem presetContribution_psi (Vinf R x0 y0 x y : ℝ) :
    (presetContribution Vinf R x0 y0 x y).2.2.2 =
      Vinf * gridR (x - x0) (y - y0) * Real.sin (gridTheta (x - x0) (y - y0)) *
        (1 - (R / gridR (x - x0) (y - y0)) ^ 2) := rfl

/-- C5 (counterexample): for the cylinder preset at position `(x0, y0) =
(1, 0)` with `Vinf = 1`, `R = 1`, queried at `(2, 0)`, the potential
contribution `dphi = 2` differs from the uniform-plus-doublet sum `2 + 1 =
3` — the uniform element's potential `U·x + V·y` uses absolute coordinates
while the preset uses coordinates translated by the element position. -/
theorem presetContribution_phi_counterexample :
    (presetContribution 1 1 1 0 2 0).2.2.1 ≠
      (FlowElement.uniform 1 0).potentialAt (2, 0) +
        (FlowElement.doublet 1 0 (2 * π * 1 * 1 ^ 2) 0).potentialAt (2, 0) := by
  have hg : gridR (1 : ℝ) 0 = 1 := by
    unfold gridR
    rw [show ((1 : ℝ) * 1 + 0 * 0 : ℝ) = 1 by norm_num, Real.sqrt_one]
  have hθ : gridTheta (1 : ℝ) 0 = 0 := by
    unfold gridTheta
    exact arctan2_zero_one
  have hL : (presetContribution 1 1 1 0 2 0).2.2.1 = 2 := by
    rw [presetContribution_phi]
    norm_num [hg, hθ]
  have hR : (FlowElement.uniform (1 : ℝ) 0).potentialAt (2, 0) +
      (FlowElement.doublet 1 0 (2 * π * 1 * 1 ^ 2) 0).potentialAt (2, 0) = 3 := by
    simp only [FlowElement.potentialAt]
    norm_num [hg, hθ]
    field_simp
    norm_num
  rw [hL, hR]
  norm_num

/-- C5 (amended): for `Vinf ≥ 0`, `R ≥ 0` and any query point at distance
`r > 0` from the element position `(x0, y0)`, the preset contribution
`(du, dv, dphi, dpsi)` equals the cylinder solver's closed-form grid fields
`(Vx, Vy, φ, ψ)` with `Γ = 0` at the translated point; its velocity
components equal the sum of a uniform flow `(Vinf, 0)` and a doublet of
strength `κ = 2π·Vinf·R²` with `α = 0` at `(x0, y0)`; and its potential and
streamfunction equal that sum only after adding the constants `Vinf·x0`
and `Vinf·y0` respectively (so exactly, only for an element at the
origin). -/
theorem presetCylinder_decomposition (Vinf R x0 y0 x y : ℝ)
    (hV : 0 ≤ Vinf) (hR : 0 ≤ R) (hr : 0 < gridR (x - x0) (y - y0)) :
    presetContribution Vinf R x0 y0 x y =
      (cylVx Vinf R 0 (gridR (x - x0) (y - y0)) (gridTheta (x - x0) (y - y0)),
       cylVy Vinf R 0 (gridR (x - x0) (y - y0)) (gridTheta (x - x0) (y - y0)),
       cylPhi Vinf R 0 (gridR (x - x0) (y - y0)) (gridTheta (x - x0) (y - y0)),
       cylPsi Vinf R 0 (gridR (x - x0) (y - y0)) (gridTheta (x - x0) (y - y0))) ∧
    (presetContribution Vinf R x0 y0 x y).1 =
      (FlowElement.uniform Vinf 0).xVelAt (x, y) +
        (FlowElement.doublet x0 y0 (2 * π * Vinf * R ^ 2) 0).xVelAt (x, y) ∧
    (presetContribution Vinf R x0 y0 x y).2.1 =
      (FlowElement.uniform Vinf 0).yVelAt (x, y) +
        (FlowElement.doublet x0 y0 (2 * π * Vinf * R ^ 2) 0).yVelAt (x, y) ∧
    (presetContribution Vinf R x0 y0 x y).2.2.1 + Vinf * x0 =
      (FlowElement.uniform Vinf 0).potentialAt (x, y) +
        (FlowElement.doublet x0 y0 (2 * π * Vinf * R ^ 2) 0).potentialAt (x, y) ∧
    (presetContribution Vinf R x0 y0 x y).2.2.2 + Vinf * y0 =
      (FlowElement.uniform Vinf 0).streamfunctionAt (x, y) +
        (FlowElement.doublet x0 y0 (2 * π * Vinf * R ^ 2) 0).streamfunctionAt (x, y) := by
  have hrne : gridR (x - x0) (y - y0) ≠ 0 := ne_of_gt hr
  have h2π : (2 : ℝ) * π ≠ 0 := by positivity
  have hκ1 : 2 * π * Vinf * R ^ 2 / (2 * π * gridR (x - x0) (y - y0) ^ 2) =
      Vinf * R ^ 2 / gridR (x - x0) (y - y0) ^ 2 := by
    rw [show (2 : ℝ) * π * Vinf * R ^ 2 = 2 * π * (Vinf * R ^ 2) by ring,
      show (2 : ℝ) * π * gridR (x - x0) (y - y0) ^ 2 =
        2 * π * gridR (x - x0) (y - y0) ^ 2 from rfl,
      show (2 : ℝ) * π * gridR (x - x0) (y - y0) ^ 2 =
        2 * π * (gridR (x - x0) (y - y0) ^ 2) by ring,
      mul_div_mul_left _ _ h2π]
  have hκ2 : 2 * π * Vinf * R ^ 2 / (2 * π * gridR (x - x0) (y - y0)) =
      Vinf * R ^ 2 / gridR (x - x0) (y - y0) := by
    rw [show (2 : ℝ) * π * Vinf * R ^ 2 = 2 * π * (Vinf * R ^ 2) by ring,
      show (2 : ℝ) * π * gridR (x - x0) (y - y0) =
        2 * π * (gridR (x - x0) (y - y0)) by ring,
      mul_div_mul_left _ _ h2π]
  have hrc := gridR_cos (x - x0) (y - y0) hr
  have hrs := gridR_sin (x - x0) (y - y0) hr
  have hcs := Real.sin_sq_add_cos_sq (gridTheta (x - x0) (y - y0))
  refine ⟨?_, ?_, ?_, ?_, ?_⟩
  · refine Prod.ext_iff.mpr ⟨?_, Prod.ext_iff.mpr ⟨?_, Prod.ext_iff.mpr ⟨?_, ?_⟩⟩⟩
    · rw [presetContribution_fst]
      unfold cylVx cylVr cylVtheta
      ring
    · rw [presetContribution_snd]
      unfold cylVy cylVr cylVtheta
      ring
    · rw [presetContribution_phi]
      unfold cylPhi
      ring
    · rw [presetContribution_psi]
      unfold cylPsi
      ring
  · rw [presetContribution_fst]
    simp only [FlowElement.xVelAt, sub_zero, Prod.fst, Prod.snd]
    rw [hκ1]
    linear_combination Vinf * hcs
  · rw [presetContribution_snd]
    simp only [FlowElement.yVelAt, sub_zero, Prod.fst, Prod.snd]
    rw [hκ1]
    ring
  · rw [presetContribution_phi]
    simp only [FlowElement.potentialAt, sub_zero, Prod.fst, Prod.snd]
    rw [hκ2]
    field_simp
    linear_combination Vinf * gridR (x - x0) (y - y0) ^ 3 * hrc
  · rw [presetContribution_psi]
    simp only [FlowElement.streamfunctionAt, sub_zero, Prod.fst, Prod.snd]
    rw [hκ2]
    field_simp
    linear_combination Vinf * gridR (x - x0) (y - y0) ^ 3 * hrs

/-- Witness for the amended C5 at the concrete input `Vinf = 1`, `R = 1`,
element at the origin, query point `(2, 0)`. -/
theorem presetCylinder_decomposition_witness :
    (0 : ℝ) ≤ 1 ∧ 0 < gridR (2 - 0 : ℝ) (0 - 0 : ℝ) ∧
    presetContribution 1 1 0 0 2 0 =
      (cylVx 1 1 0 (gridR (2 - 0 : ℝ) (0 - 0 : ℝ)) (gridTheta (2 - 0 : ℝ) (0 - 0 : ℝ)),
       cylVy 1 1 0 (gridR (2 - 0 : ℝ) (0 - 0 : ℝ)) (gridTheta (2 - 0 : ℝ) (0 - 0 : ℝ)),
       cylPhi 1 1 0 (gridR (2 - 0 : ℝ) (0 - 0 : ℝ)) (gridTheta (2 - 0 : ℝ) (0 - 0 : ℝ)),
       cylPsi 1 1 0 (gridR (2 - 0 : ℝ) (0 - 0 : ℝ)) (gridTheta (2 - 0 : ℝ) (0 - 0 : ℝ))) :=
  have hg : 0 < gridR (2 - 0 : ℝ) (0 - 0 : ℝ) := by
    unfold gridR
    rw [show ((2 - 0 : ℝ) * (2 - 0) + (0 - 0) * (0 - 0) : ℝ) = 4 by norm_num]
    positivity
  ⟨by norm_num, hg,
    (presetCylinder_decomposition 1 1 0 0 2 0 (by norm_num) (by norm_num) hg).1⟩

end
